import Mathlib

/-!
Verification of the Book-Club / Loan micro-services.

Shallow embedding of the Python sources:
  - `src/CSE_hw2/Persistent_Book_Club/book-service-dir/Book_Service.py`
  - `src/CSE_hw2/Persistent_Book_Club/loan-service-dir/Loan_Service.py`
  - `src/CSE_hw1/Book_club.py`

Modelling choices:
  * A Mongo collection is a list of `(Int × doc)` pairs in insertion order;
    `find_one {_id: k}` is first-match lookup, `update_one` rewrites the
    first match, `delete_one` removes the first match, `insert_one` appends.
  * Python ints are `Int`; Python float averages are modelled exactly as `ℚ`
    (the sources only ever form the quotient `sum(values)/len(values)`).
  * Code paths that raise an exception in Python (failed `int(...)`
    conversions, subscripts of `None`/lists) are modelled with
    `Option`/`Except Unit`, where `none`/`Except.error ()` marks the raise.
-/

namespace BookClubModel

/-- First-match lookup, the model of `collection.find_one({"_id": k})`. -/
def findOne {α : Type} : List (Int × α) → Int → Option α
  | [], _ => none
  | (i, d) :: rest, k => if i = k then some d else findOne rest k

/-- First-match rewrite, the model of `collection.update_one({"_id": k}, ...)`. -/
def updateOne {α : Type} (col : List (Int × α)) (k : Int) (f : α → α) : List (Int × α) :=
  match col with
  | [] => []
  | (i, d) :: rest => if i = k then (i, f d) :: rest else (i, d) :: updateOne rest k f

/-- Remove the first element satisfying the predicate, the model of
`collection.delete_one(filter)`. -/
def eraseFirst {α : Type} (p : α → Bool) : List α → List α
  | [] => []
  | a :: rest => if p a then rest else a :: eraseFirst p rest

/-- `collection.delete_one({"_id": k})`. -/
def deleteOne {α : Type} (col : List (Int × α)) (k : Int) : List (Int × α) :=
  eraseFirst (fun q => decide (q.1 = k)) col

/-- Dictionary lookup on a JSON object modelled as an association list. -/
def plookup : List (String × String) → String → Option String
  | [], _ => none
  | (k2, v) :: rest, k => if k2 = k then some v else plookup rest k

/-- Dictionary access `payload[k]`; only applied after the handler has
checked that the key is present, so the `""` default is never reached on
the paths the theorems describe. -/
def pget (l : List (String × String)) (k : String) : String :=
  (plookup l k).getD ""

/-- Whitespace characters stripped by Python's `int(str)`. -/
def isPyWs (c : Char) : Bool :=
  c = ' ' || c = '\t' || c = '\n' || c = '\x0d' || c = '\x0b' || c = '\x0c'

/-- Digits after the first one, allowing single underscores between digits,
as Python's integer literal grammar does. -/
def pyDigitsRest : Nat → List Char → Option Nat
  | acc, [] => some acc
  | acc, c :: rest =>
    if c.isDigit then pyDigitsRest (10 * acc + (c.toNat - 48)) rest
    else if c = '_' then
      match rest with
      | [] => none
      | d :: rest2 =>
        if d.isDigit then pyDigitsRest (10 * acc + (d.toNat - 48)) rest2 else none
    else none

/-- A nonempty digit string (with Python's underscore rule). -/
def pyDigits : List Char → Option Nat
  | [] => none
  | c :: rest => if c.isDigit then pyDigitsRest (c.toNat - 48) rest else none

/-- Optional sign in front of the digits. -/
def pySigned : List Char → Option Int
  | '+' :: rest => (pyDigits rest).map (fun n => (n : Int))
  | '-' :: rest => (pyDigits rest).map (fun n => -(n : Int))
  | l => (pyDigits l).map (fun n => (n : Int))

/-- Model of Python's `int(s)` on a string: strip surrounding whitespace,
optional sign, then a nonempty run of digits; `none` models the
`ValueError` raised on any other input. -/
def pyInt (s : String) : Option Int :=
  pySigned (((s.data.dropWhile isPyWs).reverse.dropWhile isPyWs).reverse)

/-- The regex `^\d{4}-\d{2}-\d{2}$` from `validate_loan_addition`. -/
def dateFormatOk (s : String) : Bool :=
  match s.data with
  | [y1, y2, y3, y4, s1, m1, m2, s2, d1, d2] =>
    y1.isDigit && y2.isDigit && y3.isDigit && y4.isDigit && s1 = '-' &&
      m1.isDigit && m2.isDigit && s2 = '-' && d1.isDigit && d2.isDigit
  | _ => false

/-- Gregorian leap year, as `datetime` uses. -/
def isLeap (y : Nat) : Bool :=
  (y % 4 = 0 && y % 100 ≠ 0) || y % 400 = 0

/-- Days in a month of a given year. -/
def daysInMonth (y m : Nat) : Nat :=
  if m = 2 then (if isLeap y then 29 else 28)
  else if m = 4 || m = 6 || m = 9 || m = 11 then 30
  else 31

/-- Model of `datetime.strptime(s, "%Y-%m-%d")` succeeding on a string that
already matches the date regex: the year is in `datetime`'s range
(`MINYEAR = 1`) and the month/day denote a calendar-valid date. -/
def calendarValid (s : String) : Bool :=
  match s.data with
  | [y1, y2, y3, y4, _, m1, m2, _, d1, d2] =>
    let y := (y1.toNat - 48) * 1000 + (y2.toNat - 48) * 100 + (y3.toNat - 48) * 10 + (y4.toNat - 48)
    let m := (m1.toNat - 48) * 10 + (m2.toNat - 48)
    let d := (d1.toNat - 48) * 10 + (d2.toNat - 48)
    decide (1 ≤ y) && decide (1 ≤ m) && decide (m ≤ 12) && decide (1 ≤ d) &&
      decide (d ≤ daysInMonth y m)
  | _ => false

/-! ## Book service (`Book_Service.py`) -/

/-- The non-`_id` fields of a book document, as built in `Books.post`. -/
structure BookFields where
  id : String
  title : String
  isbn : String
  genre : String
  authors : String
  publisher : String
  publishedDate : String
deriving DecidableEq

/-- A document of the `books` collection: either the reserved counter
document (holding `highest_object_id`) or a book document. -/
inductive BDoc
  | counter (highest_object_id : Int)
  | book (fields : BookFields)
deriving DecidableEq

/-- The non-`_id` fields of a rating document. -/
structure RatingFields where
  id : String
  values : List Int
  average : ℚ
  title : String
deriving DecidableEq

/-- The persisted state of the book service: the `books` collection (which
also holds the counter document at `_id = 0`) and the `ratings` collection. -/
structure BookSvc where
  bookCol : List (Int × BDoc)
  ratingCol : List (Int × RatingFields)
deriving DecidableEq

/-- `BookClub.get_books`: all documents with `_id > 0` (the `_id = 0`
counter document is excluded by the `$gt` filter).  The `_id` is kept in
the pair for specification purposes; the service drops it only in the
JSON projection of the same documents. -/
def get_books (s : BookSvc) : List (Int × BDoc) :=
  s.bookCol.filter (fun p => decide (0 < p.1))

/-- `BookClub.get_book` after `int(book_id)` has succeeded: guarded lookup
for identifiers `> 0`, returning `None` (here `none`) otherwise. -/
def get_book_core (s : BookSvc) (i : Int) : Option BDoc :=
  if 0 < i then findOne s.bookCol i else none

/-- `BookClub.get_book` on the raw string path parameter: `int(book_id)`
raises (`Except.error ()`) on a malformed identifier. -/
def get_book (s : BookSvc) (bid : String) : Except Unit (Option BDoc) :=
  (pyInt bid).elim (Except.error ()) (fun i => Except.ok (get_book_core s i))

/-- `BookClub.get_book_rating` after `int(book_id)` has succeeded. -/
def get_book_rating_core (s : BookSvc) (i : Int) : Option RatingFields :=
  findOne s.ratingCol i

/-- `BookClub.get_book_ratings`: every rating document, unfiltered. -/
def get_book_ratings (s : BookSvc) : List (Int × RatingFields) :=
  s.ratingCol

/-- The quotient `sum(values) / len(values)` formed in
`calculate_rating_average`, taken over the exact rationals. -/
def ratMean (vs : List Int) : ℚ :=
  ((vs.sum : Int) : ℚ) / ((vs.length : ℚ))

/-- `BookClub.calculate_rating_average`: re-read the rating document,
recompute the average from the full stored value list and `$set` it.
`none` models the `TypeError` Python raises when the document is absent. -/
def calculate_rating_average (s : BookSvc) (rid : Int) : Option (BookSvc × ℚ) :=
  (findOne s.ratingCol rid).map (fun r =>
    let newAverage := ratMean r.values
    ({ s with ratingCol :=
        updateOne s.ratingCol rid (fun rr => { rr with average := newAverage }) },
     newAverage))

/-- `BookClub.add_rating_value`: `$push` the value onto the stored list,
then recompute and persist the average. -/
def add_rating_value (s : BookSvc) (v : Int) (rid : Int) : Option (BookSvc × ℚ) :=
  calculate_rating_average
    { s with ratingCol := updateOne s.ratingCol rid (fun r => { r with values := r.values ++ [v] }) }
    rid

/-- `BookClub.delete_book`: look the book up, and if present,
`delete_one(book)` — the filter is the *projected document's field set* —
then `delete_one({"_id": id})` on the ratings collection. -/
def delete_book (s : BookSvc) (i : Int) : BookSvc :=
  match get_book_core s i with
  | none => s
  | some d =>
    { s with
      bookCol := eraseFirst (fun q => decide (q.2 = d)) s.bookCol,
      ratingCol := deleteOne s.ratingCol i }

/-- `BookClub.delete_book_rating`: delete the rating document if present. -/
def delete_book_rating (s : BookSvc) (i : Int) : BookSvc :=
  match get_book_rating_core s i with
  | none => s
  | some _ => { s with ratingCol := deleteOne s.ratingCol i }

/-- `SpecificBook.delete` (the `DELETE /books/{id}` handler) after
`int(book_id)` has succeeded: 404 when the book is absent, otherwise
cascade-delete and answer 200. -/
def specificBook_delete (s : BookSvc) (i : Int) : BookSvc × Nat :=
  match get_book_core s i with
  | none => (s, 404)
  | some _ => (delete_book_rating (delete_book s i) i, 200)

/-- `BookClub.increment_id`: read `highest_object_id` from the `_id = 0`
document, add one, `$set` it back, return the new value.  `none` models
the exception raised when the counter document is missing.  The read and
the write are two separate collection operations, exactly as in the
source. -/
def increment_id (s : BookSvc) : Option (BookSvc × Int) :=
  match findOne s.bookCol 0 with
  | some (BDoc.counter n) =>
    some ({ s with bookCol := updateOne s.bookCol 0 (fun _ => BDoc.counter (n + 1)) }, n + 1)
  | _ => none

/-! ## Loan service (`Loan_Service.py`) -/

/-- The non-`_id` fields of a loan document, as built in `Loans.post`. -/
structure LoanFields where
  loanID : String
  bookID : String
  title : String
  isbn : String
  memberName : String
  loanDate : String
deriving DecidableEq

/-- A document of the `loans` collection: the reserved counter document or
a loan document. -/
inductive LDoc
  | counter (highest_object_id : Int)
  | loan (fields : LoanFields)
deriving DecidableEq

/-- The persisted state of the loan service. -/
structure LoanSvc where
  loanCol : List (Int × LDoc)
deriving DecidableEq

/-- The `REQUIRED_FIELDS` constant of the loan service. -/
def REQUIRED_FIELDS_LOANS : List String :=
  ["memberName", "ISBN", "loanDate", "title", "bookID", "loanID"]

/-- `LoansService.get_loans`: all documents with `_id > 0`, which excludes
the counter document.  As with `get_books`, the `_id` is kept in the pair
for specification purposes. -/
def get_loans (st : LoanSvc) : List (Int × LDoc) :=
  st.loanCol.filter (fun p => decide (0 < p.1))

/-- `LoansService.get_loan` after `int(loan_id)` has succeeded. -/
def get_loan_core (st : LoanSvc) (i : Int) : Option LDoc :=
  if 0 < i then findOne st.loanCol i else none

/-- `LoansService.get_loan` on the raw string path parameter. -/
def get_loan (st : LoanSvc) (lid : String) : Except Unit (Option LDoc) :=
  (pyInt lid).elim (Except.error ()) (fun i => Except.ok (get_loan_core st i))

/-- `LoansService.delete_loan` on the raw string path parameter:
`int(loan_id)` raises on malformed input, otherwise `delete_one`. -/
def delete_loan (st : LoanSvc) (lid : String) : Except Unit LoanSvc :=
  (pyInt lid).elim (Except.error ())
    (fun i => Except.ok { st with loanCol := deleteOne st.loanCol i })

/-- `LoansService.add_loan`: `insert_one`, appending in insertion order. -/
def add_loan (st : LoanSvc) (i : Int) (d : LDoc) : LoanSvc :=
  { st with loanCol := st.loanCol ++ [(i, d)] }

/-- `LoansService.increment_id`: same two-step read/`$set` as the book
service's allocator. -/
def loan_increment_id (st : LoanSvc) : Option (LoanSvc × Int) :=
  match findOne st.loanCol 0 with
  | some (LDoc.counter n) =>
    some ({ st with loanCol := updateOne st.loanCol 0 (fun _ => LDoc.counter (n + 1)) }, n + 1)
  | _ => none

/-- The `loan["ISBN"]` access made while scanning `get_loans()`; the scan
only ever sees documents with `_id > 0`, i.e. loan documents. -/
def lIsbn : LDoc → String
  | LDoc.loan l => l.isbn
  | LDoc.counter _ => ""

/-- The `memberName` field as Mongo's `{"memberName": name}` filter sees
it: absent on the counter document. -/
def lMember : LDoc → Option String
  | LDoc.loan l => some l.memberName
  | LDoc.counter _ => none

/-- `LoansService.loan_count_of_member`:
`count_documents({"memberName": member_name})`. -/
def loan_count_of_member (st : LoanSvc) (name : String) : Nat :=
  (st.loanCol.filter (fun p => decide (lMember p.2 = some name))).length

/-- The distinct refusals of `validate_loan_addition`, in source order;
every one of them is returned with HTTP status 422. -/
inductive LoanErr
  | badFields
  | badIsbn
  | isbnOnLoan
  | memberLimit
  | badDateFormat
  | badDate
deriving DecidableEq

/-- `LoansService.validate_loan_addition`: the five validation gates, in
source order.  `none` means the payload passed every gate. -/
def validate_loan_addition (st : LoanSvc) (payload : List (String × String)) : Option LoanErr :=
  if payload.length ≠ (REQUIRED_FIELDS_LOANS.take 3).length ∨
      ¬ (∀ f ∈ REQUIRED_FIELDS_LOANS.take 3, (plookup payload f).isSome) then
    some LoanErr.badFields
  else if (pget payload "ISBN").length ≠ 13 then
    some LoanErr.badIsbn
  else if (get_loans st).any (fun p => decide (lIsbn p.2 = pget payload "ISBN")) then
    some LoanErr.isbnOnLoan
  else if 2 ≤ loan_count_of_member st (pget payload "memberName") then
    some LoanErr.memberLimit
  else if !dateFormatOk (pget payload "loanDate") then
    some LoanErr.badDateFormat
  else if !calendarValid (pget payload "loanDate") then
    some LoanErr.badDate
  else
    none

/-- The loan coordinator's view of the catalog response: `.obj` is the
single-book JSON object (an association list of its fields), `.arr` a
JSON array of which only the length is relevant here. -/
inductive RespBody
  | obj (fields : List (String × String))
  | arr (len : Nat)
deriving DecidableEq

/-- `len(book_details)` on the decoded response body. -/
def bodyLen : RespBody → Nat
  | RespBody.obj fields => fields.length
  | RespBody.arr n => n

/-- `book_details[k]`: `none` models the `TypeError`/`KeyError` raised on a
list body or a missing key. -/
def bodyGet (b : RespBody) (k : String) : Option String :=
  match b with
  | RespBody.obj fields => plookup fields k
  | RespBody.arr _ => none

/-- `Loans.post`, the `POST /loans` handler, with the catalog response of
`check_if_in_library` supplied as `(status, body)`.  The result carries
the new store, the HTTP status, and the allocated loan id when a loan was
committed; `Except.error ()` marks an unhandled exception. -/
def loans_post (st : LoanSvc) (payload : List (String × String)) (status : Nat)
    (body : RespBody) : Except Unit (LoanSvc × Nat × Option Int) :=
  if payload.length = 0 then Except.ok (st, 415, none)
  else
    match validate_loan_addition st payload with
    | some _ => Except.ok (st, 422, none)
    | none =>
      if bodyLen body = 0 ∨ status ≠ 200 then Except.ok (st, 404, none)
      else
        match loan_increment_id st with
        | none => Except.error ()
        | some (st1, lid) =>
          match bodyGet body "id", bodyGet body "title" with
          | some bid, some btitle =>
            Except.ok
              (add_loan st1 lid
                (LDoc.loan
                  { loanID := toString lid, bookID := bid, title := btitle,
                    isbn := pget payload "ISBN", memberName := pget payload "memberName",
                    loanDate := pget payload "loanDate" }),
               201, some lid)
          | _, _ => Except.error ()

/-! ## Point-lookup handlers over raw path parameters -/

/-- `SpecificBook.get` (the `GET /books/{id}` handler): status of the
response, `Except.error ()` when the identifier conversion raises. -/
def specificBook_get (s : BookSvc) (bid : String) : Except Unit Nat :=
  match get_book s bid with
  | Except.error _ => Except.error ()
  | Except.ok none => Except.ok 404
  | Except.ok (some _) => Except.ok 200

/-- `BookClub.get_book_rating` on the raw string path parameter:
`int(book_id)` raises on a malformed identifier; the ratings lookup has
no `> 0` guard in the source. -/
def get_book_rating (s : BookSvc) (bid : String) : Except Unit (Option RatingFields) :=
  (pyInt bid).elim (Except.error ()) (fun i => Except.ok (get_book_rating_core s i))

/-- `SpecificRatings.get` (the `GET /ratings/{id}` handler). -/
def specificRatings_get (s : BookSvc) (bid : String) : Except Unit Nat :=
  match get_book_rating s bid with
  | Except.error _ => Except.error ()
  | Except.ok none => Except.ok 404
  | Except.ok (some _) => Except.ok 200

/-- `SpecificBook.delete` (the `DELETE /books/{id}` handler) on the raw
string path parameter: the first `int(book_id)` conversion (inside
`get_book`) raises on a malformed identifier; otherwise the handler
behaves as the integer-identifier cascade `specificBook_delete`. -/
def specificBook_delete_str (s : BookSvc) (bid : String) : Except Unit (BookSvc × Nat) :=
  (pyInt bid).elim (Except.error ()) (fun i => Except.ok (specificBook_delete s i))

/-- `SpecificLoan.get` (the `GET /loans/{id}` handler). -/
def specificLoan_get (st : LoanSvc) (lid : String) : Except Unit Nat :=
  match get_loan st lid with
  | Except.error _ => Except.error ()
  | Except.ok none => Except.ok 404
  | Except.ok (some _) => Except.ok 200

/-- `SpecificLoan.delete` (the `DELETE /loans/{id}` handler): look the
loan up first (404 when absent), then `delete_loan`. -/
def specificLoan_delete (st : LoanSvc) (lid : String) : Except Unit (LoanSvc × Nat) :=
  match get_loan st lid with
  | Except.error _ => Except.error ()
  | Except.ok none => Except.ok (st, 404)
  | Except.ok (some _) =>
    match delete_loan st lid with
    | Except.error _ => Except.error ()
    | Except.ok st2 => Except.ok (st2, 200)

/-! ## Sequential allocation (`increment_id` iterated) -/

/-- `n` back-to-back calls of `increment_id` against one store, collecting
the identifiers handed out, in order. -/
def allocSeq (s : BookSvc) : Nat → Option (BookSvc × List Int)
  | 0 => some (s, [])
  | n + 1 =>
    match increment_id s with
    | none => none
    | some (s1, i) =>
      match allocSeq s1 n with
      | none => none
      | some (s2, rest) => some (s2, i :: rest)

/-- The identifiers a correct run hands out after counter value `c`. -/
def idsFrom (c : Int) : Nat → List Int
  | 0 => []
  | n + 1 => (c + 1) :: idsFrom (c + 1) n

/-! ## Interleaved execution of two `increment_id` calls

`increment_id` performs two separate store operations: the `find_one` read
of the counter and the `update_one` write of the incremented value.  A
concurrent caller can be scheduled between them.  `ProcSt` is the local
state of one in-flight call: `localKey` holds `highest_object_id + 1`
once the read has happened, `result` the returned identifier once the
write has happened. -/

/-- Local state of one in-flight `increment_id` call. -/
structure ProcSt where
  localKey : Option Int
  result : Option Int
deriving DecidableEq

/-- One atomic store operation of an in-flight `increment_id` call: first
the `find_one` read (computing `current_key`), then the `update_one`
write that persists it and fixes the returned value. -/
def procStep (s : BookSvc) (p : ProcSt) : Option (BookSvc × ProcSt) :=
  match p.localKey with
  | none =>
    match findOne s.bookCol 0 with
    | some (BDoc.counter n) => some (s, { p with localKey := some (n + 1) })
    | _ => none
  | some ck =>
    match p.result with
    | none =>
      some ({ s with bookCol := updateOne s.bookCol 0 (fun _ => BDoc.counter ck) },
            { p with result := some ck })
    | some _ => none

/-- Run a schedule over two concurrent `increment_id` callers: `true`
steps the first caller, `false` the second. -/
def runSched : List Bool → BookSvc → ProcSt → ProcSt → Option (BookSvc × ProcSt × ProcSt)
  | [], s, a, b => some (s, a, b)
  | c :: rest, s, a, b =>
    if c then
      match procStep s a with
      | none => none
      | some (s1, a1) => runSched rest s1 a1 b
    else
      match procStep s b with
      | none => none
      | some (s1, b1) => runSched rest s1 a b1

/-- A fresh store: only the initialized counter document. -/
def freshStore : BookSvc :=
  { bookCol := [(0, BDoc.counter 0)], ratingCol := [] }

/-- A caller that has not started yet. -/
def idleProc : ProcSt :=
  { localKey := none, result := none }

/-- A fresh loan store: only the initialized counter document. -/
def freshLoanStore : LoanSvc :=
  { loanCol := [(0, LDoc.counter 0)] }

/-- A loan store holding one active loan. -/
def loanSample : LoanSvc :=
  ⟨[(0, LDoc.counter 1),
    (1, LDoc.loan ⟨"1", "1", "T", "1234567890123", "alice", "2024-01-15"⟩)]⟩

/-- A catalog with four rated books whose averages are 5, 4, 3 and 3: the
third-highest distinct average (3) is shared by two books. -/
def topSample : BookSvc :=
  ⟨[(0, BDoc.counter 4),
    (1, BDoc.book ⟨"1", "B1", "1111111111111", "Fiction", "A", "P", "2020"⟩),
    (2, BDoc.book ⟨"2", "B2", "2222222222222", "Fiction", "A", "P", "2020"⟩),
    (3, BDoc.book ⟨"3", "B3", "3333333333333", "Fiction", "A", "P", "2020"⟩),
    (4, BDoc.book ⟨"4", "B4", "4444444444444", "Fiction", "A", "P", "2020"⟩)],
   [(1, ⟨"1", [5, 5, 5], 5, "B1"⟩), (2, ⟨"2", [4, 4, 4], 4, "B2"⟩),
    (3, ⟨"3", [3, 3, 3], 3, "B3"⟩), (4, ⟨"4", [3, 3, 3], 3, "B4"⟩)]⟩

/-- The book/rating pairs of `topSample`, as `booksWithRatings` reads them. -/
def topSampleBR : List (BookFields × RatingFields) :=
  [(⟨"1", "B1", "1111111111111", "Fiction", "A", "P", "2020"⟩, ⟨"1", [5, 5, 5], 5, "B1"⟩),
   (⟨"2", "B2", "2222222222222", "Fiction", "A", "P", "2020"⟩, ⟨"2", [4, 4, 4], 4, "B2"⟩),
   (⟨"3", "B3", "3333333333333", "Fiction", "A", "P", "2020"⟩, ⟨"3", [3, 3, 3], 3, "B3"⟩),
   (⟨"4", "B4", "4444444444444", "Fiction", "A", "P", "2020"⟩, ⟨"4", [3, 3, 3], 3, "B4"⟩)]

/-- A small populated catalog: the counter document, one book, and the
book's paired rating record. -/
def bcSample : BookSvc :=
  ⟨[(0, BDoc.counter 1),
    (1, BDoc.book ⟨"1", "T", "1234567890123", "Fiction", "A", "P", "2020"⟩)],
   [(1, ⟨"1", [5, 4, 5], 14 / 3, "T"⟩)]⟩

/-! ## Top-N ranker (`TopBooks.get`) -/

/-- A book paired with the rating record found for its `id` field; the
repeated `get_book_rating(book["id"])` reads of `TopBooks.get` all hit
the same unchanged store, so the pair is read once and reused. -/
def ratingFor (s : BookSvc) (d : BDoc) : Option RatingFields :=
  match d with
  | BDoc.book f => (pyInt f.id).bind (fun i => findOne s.ratingCol i)
  | BDoc.counter _ => none

/-- Every listed book together with its rating record; `none` models the
exception `TopBooks.get` raises when some book has no rating record. -/
def booksWithRatings (s : BookSvc) : Option (List (BookFields × RatingFields)) :=
  (get_books s).mapM (fun p =>
    match p.2 with
    | BDoc.book f => (ratingFor s p.2).map (fun r => (f, r))
    | BDoc.counter _ => none)

/-- The eligibility filter: `len(rating["values"]) >= 3`. -/
def eligibleOf (brs : List (BookFields × RatingFields)) : List (BookFields × RatingFields) :=
  brs.filter (fun br => decide (3 ≤ br.2.values.length))

/-- Stable descending insertion by `average`.  Python's `sorted(...,
reverse=True)` is a stable descending sort, and stable sorts agree on
their output, so this insertion sort computes the same list. -/
def insertDesc (x : BookFields × RatingFields) :
    List (BookFields × RatingFields) → List (BookFields × RatingFields)
  | [] => [x]
  | y :: rest =>
    if y.2.average ≤ x.2.average then x :: y :: rest else y :: insertDesc x rest

/-- Stable descending sort by `average`, the model of
`sorted(eligible_books, key=..., reverse=True)`. -/
def sortDesc : List (BookFields × RatingFields) → List (BookFields × RatingFields)
  | [] => []
  | x :: rest => insertDesc x (sortDesc rest)

/-- The `{'id': ..., 'title': ..., 'average': ...}` projection appended to
`top_books`. -/
def projTop (br : BookFields × RatingFields) : String × String × ℚ :=
  (br.1.id, br.1.title, br.2.average)

/-- The output loop of `TopBooks.get`: walk the sorted list with a
distinct-average counter (`top_rate_counter`) and the previous average
(`current_average`), stopping once a fourth distinct average starts. -/
def topLoop : List (BookFields × RatingFields) → Nat → ℚ → List (String × String × ℚ)
  | [], _, _ => []
  | br :: rest, cnt, current =>
    if br.2.average ≠ current then
      if cnt + 1 > 3 then []
      else projTop br :: topLoop rest (cnt + 1) br.2.average
    else
      projTop br :: topLoop rest cnt br.2.average

/-- `TopBooks.get`: filter to eligible books, sort by average descending,
walk with the distinct-average cutoff.  `top_rate_counter` starts at 0 and
`current_average` at 0. -/
def top_books_get (s : BookSvc) : Option (List (String × String × ℚ)) :=
  (booksWithRatings s).map (fun brs => topLoop (sortDesc (eligibleOf brs)) 0 0)

/-- The distinct averages among eligible books, highest first (`dedup` of
the descending sort keeps one occurrence per value, in order); its
3-element prefix is "the 3 highest distinct averages". -/
def topDistinctAverages (brs : List (BookFields × RatingFields)) : List ℚ :=
  (((sortDesc (eligibleOf brs)).map (fun br => br.2.average)).dedup).take 3

/-! ## The first-iteration service (`CSE_hw1/Book_club.py`): `Books.get` -/

/-- A book record of the first-iteration service: all fields are strings
except the `language` list. -/
structure HBook where
  title : String
  isbn : String
  genre : String
  authors : String
  publisher : String
  publishedDate : String
  summary : String
  id : String
  language : List String
deriving DecidableEq

/-- The `REQUIRED_FIELDS` constant of the first-iteration service. -/
def hw1RequiredFields : List String :=
  ["title", "ISBN", "genre", "authors", "publisher", "publishedDate", "language",
   "summary", "id"]

/-- The closed `GENRES` enumeration (identical in all three sources). -/
def GENRES : List String :=
  ["Fiction", "Children", "Biography", "Science", "Science Fiction", "Fantasy", "Other"]

/-- The language codes `Books.get` accepts for a `language` query. -/
def hw1Languages : List String :=
  ["heb", "eng", "spa", "chi"]

/-- `book[field]` for the exact-match query fields (`language` is
special-cased by the handler and never reaches this access). -/
def hbookField (b : HBook) : String → String
  | "title" => b.title
  | "ISBN" => b.isbn
  | "genre" => b.genre
  | "authors" => b.authors
  | "publisher" => b.publisher
  | "publishedDate" => b.publishedDate
  | "summary" => b.summary
  | "id" => b.id
  | _ => ""

/-- The filtering loop of the first-iteration `Books.get` over the query
parameters, in order: unsupported field or out-of-enum genre is a 422
(`none`); a `language` query filters by membership in the record's
language list; every other supported field filters by exact equality. -/
def books_get_filter : List (String × String) → List HBook → Option (List HBook)
  | [], books => some books
  | (field, value) :: rest, books =>
    if field ∉ hw1RequiredFields ∨ (field = "genre" ∧ value ∉ GENRES) then none
    else if field = "language" then
      if value ∉ hw1Languages then none
      else books_get_filter rest (books.filter (fun b => decide (value ∈ b.language)))
    else
      books_get_filter rest (books.filter (fun b => decide (hbookField b field = value)))

/-! ## Helper lemmas -/

theorem findOne_updateOne_self {α : Type} (col : List (Int × α)) (k : Int) (f : α → α) :
    findOne (updateOne col k f) k = (findOne col k).map f := by
  induction col with
  | nil => rfl
  | cons hd tl ih =>
    obtain ⟨i, d⟩ := hd
    by_cases h : i = k
    · simp [updateOne, findOne, h]
    · simp [updateOne, findOne, h, ih]

theorem findOne_updateOne_ne {α : Type} (col : List (Int × α)) (j k : Int) (f : α → α)
    (h : j ≠ k) : findOne (updateOne col j f) k = findOne col k := by
  induction col with
  | nil => rfl
  | cons hd tl ih =>
    obtain ⟨i, d⟩ := hd
    by_cases hj : i = j
    · subst hj
      simp [updateOne, findOne, h]
    · simp [updateOne, findOne, hj, ih]

theorem increment_id_spec (s : BookSvc) (c : Int)
    (h : findOne s.bookCol 0 = some (BDoc.counter c)) :
    ∃ s1, increment_id s = some (s1, c + 1) ∧
      findOne s1.bookCol 0 = some (BDoc.counter (c + 1)) := by
  refine ⟨{ s with bookCol := updateOne s.bookCol 0 (fun _ => BDoc.counter (c + 1)) }, ?_, ?_⟩
  · simp [increment_id, h]
  · simp [findOne_updateOne_self, h]

theorem allocSeq_spec (n : Nat) :
    ∀ (s : BookSvc) (c : Int), findOne s.bookCol 0 = some (BDoc.counter c) →
      ∃ s2, allocSeq s n = some (s2, idsFrom c n) ∧
        findOne s2.bookCol 0 = some (BDoc.counter (c + n)) := by
  induction n with
  | zero =>
    intro s c h
    exact ⟨s, rfl, by simpa using h⟩
  | succ n ih =>
    intro s c h
    obtain ⟨s1, h1, h1c⟩ := increment_id_spec s c h
    obtain ⟨s2, h2, h2c⟩ := ih s1 (c + 1) h1c
    refine ⟨s2, ?_, ?_⟩
    · simp [allocSeq, h1, h2, idsFrom]
    · rw [h2c]
      congr 2
      push_cast
      ring

theorem idsFrom_bound (n : Nat) : ∀ c : Int, ∀ x ∈ idsFrom c n, c < x := by
  induction n with
  | zero => intro c x hx; simp [idsFrom] at hx
  | succ n ih =>
    intro c x hx
    rcases (by simpa [idsFrom] using hx : x = c + 1 ∨ x ∈ idsFrom (c + 1) n) with h | h
    · omega
    · have := ih (c + 1) x h
      omega

theorem idsFrom_sorted (n : Nat) : ∀ c : Int, (idsFrom c n).Pairwise (· < ·) := by
  induction n with
  | zero => intro c; simp [idsFrom]
  | succ n ih =>
    intro c
    refine List.pairwise_cons.2 ⟨?_, ih (c + 1)⟩
    intro x hx
    have := idsFrom_bound n (c + 1) x hx
    omega

/-! ## Claim theorems -/

/-- C1 (counterexample): the claim says two concurrent calls to the
identifier allocator never observe the same pre-increment counter value.
But `increment_id` is a `find_one` followed by a separate `update_one`,
so in the interleaving read₁, read₂, write₁, write₂ over a fresh store
both callers read pre-increment value 0 and both return identifier 1 —
the identifier set for `N = 2` concurrent allocations is `{1}`, not
`{1, 2}`. -/
theorem C1_race_counterexample :
    ∃ r, runSched [true, false, true, false] freshStore idleProc idleProc = some r ∧
      r.2.1.result = some 1 ∧ r.2.2.result = some 1 ∧
      r.2.1.result = r.2.2.result := by
  exact ⟨_, rfl, rfl, rfl, rfl⟩

/-- C1 (amended): the read and the write of the persisted counter are two
separate store operations, so interleaved callers can observe the same
pre-increment value; only when the two allocations are serialized (one
caller's read and write both precede the other's read) do the two callers
receive the distinct identifiers `{1, 2}` over a fresh store. -/
theorem C1_serialized_allocations (sched : List Bool)
    (h : sched = [true, true, false, false] ∨ sched = [false, false, true, true]) :
    ∃ r, runSched sched freshStore idleProc idleProc = some r ∧
      r.2.1.result ≠ r.2.2.result ∧
      (r.2.1.result = some 1 ∧ r.2.2.result = some 2 ∨
       r.2.1.result = some 2 ∧ r.2.2.result = some 1) := by
  rcases h with h | h <;> subst h
  · exact ⟨_, rfl, by decide, Or.inl ⟨rfl, rfl⟩⟩
  · exact ⟨_, rfl, by decide, Or.inr ⟨rfl, rfl⟩⟩

theorem C1_serialized_allocations_witness :
    ∃ r, runSched [true, true, false, false] freshStore idleProc idleProc = some r ∧
      r.2.1.result ≠ r.2.2.result ∧
      (r.2.1.result = some 1 ∧ r.2.2.result = some 2 ∨
       r.2.1.result = some 2 ∧ r.2.2.result = some 1) :=
  C1_serialized_allocations [true, true, false, false] (Or.inl rfl)

/-- C6: starting from an initialized store (counter document holding 0),
a sequence of `n` non-concurrent calls of `increment_id` returns the
identifiers `idsFrom 0 n = [1, 2, ..., n]`: strictly increasing (each
value strictly greater than every previously allocated one), starting at
1; and every single call persists the incremented counter — the stored
`highest_object_id` equals the identifier handed out, both per step and
after the whole sequence. -/
theorem C6_sequential_allocation (s : BookSvc) (n : Nat)
    (h : findOne s.bookCol 0 = some (BDoc.counter 0)) :
    ∃ s2, allocSeq s n = some (s2, idsFrom 0 n) ∧
      (idsFrom 0 n).Pairwise (· < ·) ∧
      (0 < n → (idsFrom 0 n).head? = some 1) ∧
      findOne s2.bookCol 0 = some (BDoc.counter (n : Int)) ∧
      (∀ t c t2 i, findOne t.bookCol 0 = some (BDoc.counter c) →
        increment_id t = some (t2, i) →
        findOne t2.bookCol 0 = some (BDoc.counter i) ∧ c < i) := by
  obtain ⟨s2, h1, h2⟩ := allocSeq_spec n s 0 h
  refine ⟨s2, h1, idsFrom_sorted n 0, ?_, by simpa using h2, ?_⟩
  · intro hn
    cases n with
    | zero => omega
    | succ m => simp [idsFrom]
  · intro t c t2 i hc hinc
    obtain ⟨t1, hinc2, hpers⟩ := increment_id_spec t c hc
    rw [hinc2] at hinc
    obtain ⟨rfl, rfl⟩ : t1 = t2 ∧ c + 1 = i := by
      constructor <;> [skip; skip] <;> injection hinc with h3 <;>
        [exact congrArg Prod.fst h3; exact congrArg Prod.snd h3]
    exact ⟨hpers, by omega⟩

theorem C6_sequential_allocation_witness :
    ∃ s2, allocSeq freshStore 3 = some (s2, idsFrom 0 3) ∧
      (idsFrom 0 3).Pairwise (· < ·) ∧
      (0 < 3 → (idsFrom 0 3).head? = some 1) ∧
      findOne s2.bookCol 0 = some (BDoc.counter (3 : Int)) ∧
      (∀ t c t2 i, findOne t.bookCol 0 = some (BDoc.counter c) →
        increment_id t = some (t2, i) →
        findOne t2.bookCol 0 = some (BDoc.counter i) ∧ c < i) :=
  C6_sequential_allocation freshStore 3 rfl

/-- C9: the reserved counter document at identifier 0 is invisible to the
public read interface of both stores: the guarded point lookups
(`get_book`, `get_loan`) return absent for every identifier not strictly
greater than 0, and the list scans (`get_books`, `get_loans`) only ever
return documents whose identifier is at least 1. -/
theorem C9_counter_never_visible (bs : BookSvc) (ls : LoanSvc) (i : Int) (h : i ≤ 0) :
    get_book_core bs i = none ∧ get_loan_core ls i = none ∧
    (∀ p ∈ get_books bs, 1 ≤ p.1) ∧ (∀ p ∈ get_loans ls, 1 ≤ p.1) := by
  refine ⟨?_, ?_, ?_, ?_⟩
  · simp only [get_book_core, if_neg (by omega : ¬ (0 : Int) < i)]
  · simp only [get_loan_core, if_neg (by omega : ¬ (0 : Int) < i)]
  · intro p hp
    have := (List.mem_filter.1 hp).2
    simp only [decide_eq_true_eq] at this
    omega
  · intro p hp
    have := (List.mem_filter.1 hp).2
    simp only [decide_eq_true_eq] at this
    omega

theorem C9_counter_never_visible_witness :
    get_book_core freshStore 0 = none ∧ get_loan_core freshLoanStore 0 = none ∧
    (∀ p ∈ get_books freshStore, 1 ≤ p.1) ∧ (∀ p ∈ get_loans freshLoanStore, 1 ≤ p.1) :=
  C9_counter_never_visible freshStore freshLoanStore 0 (by decide)

/-- C10: when the identifier path parameter is not parsable by Python's
`int`, the point lookups on books, ratings and loans, the book delete and
the loan delete all raise the conversion exception (modelled
`Except.error ()`) instead of answering 404; and each of those handlers
answers 404 only when the identifier parsed as an integer and no record
matched. -/
theorem C10_malformed_identifier_raises (bs : BookSvc) (ls : LoanSvc) (sid : String) :
    (pyInt sid = none →
      specificBook_get bs sid = Except.error () ∧
      specificBook_delete_str bs sid = Except.error () ∧
      specificRatings_get bs sid = Except.error () ∧
      specificLoan_get ls sid = Except.error () ∧
      specificLoan_delete ls sid = Except.error ()) ∧
    (specificBook_get bs sid = Except.ok 404 →
      ∃ i, pyInt sid = some i ∧ get_book_core bs i = none) ∧
    (∀ st2, specificBook_delete_str bs sid = Except.ok (st2, 404) →
      ∃ i, pyInt sid = some i ∧ get_book_core bs i = none) ∧
    (specificRatings_get bs sid = Except.ok 404 →
      ∃ i, pyInt sid = some i ∧ get_book_rating_core bs i = none) ∧
    (specificLoan_get ls sid = Except.ok 404 →
      ∃ i, pyInt sid = some i ∧ get_loan_core ls i = none) ∧
    (∀ st2, specificLoan_delete ls sid = Except.ok (st2, 404) →
      ∃ i, pyInt sid = some i ∧ get_loan_core ls i = none) := by
  cases hp : pyInt sid with
  | none =>
    refine ⟨fun _ => ⟨?_, ?_, ?_, ?_, ?_⟩, ?_, ?_, ?_, ?_, ?_⟩
    · simp [specificBook_get, get_book, hp]
    · simp [specificBook_delete_str, hp]
    · simp [specificRatings_get, get_book_rating, hp]
    · simp [specificLoan_get, get_loan, hp]
    · simp [specificLoan_delete, get_loan, hp]
    · intro h
      simp [specificBook_get, get_book, hp] at h
    · intro st2 h
      simp [specificBook_delete_str, hp] at h
    · intro h
      simp [specificRatings_get, get_book_rating, hp] at h
    · intro h
      simp [specificLoan_get, get_loan, hp] at h
    · intro st2 h
      simp [specificLoan_delete, get_loan, hp] at h
  | some i =>
    refine ⟨fun hcontra => by simp at hcontra, ?_, ?_, ?_, ?_, ?_⟩
    · intro h
      refine ⟨i, rfl, ?_⟩
      cases hb : get_book_core bs i with
      | none => rfl
      | some d => simp [specificBook_get, get_book, hp, hb] at h
    · intro st2 h
      refine ⟨i, rfl, ?_⟩
      cases hb : get_book_core bs i with
      | none => rfl
      | some d =>
        simp [specificBook_delete_str, hp, specificBook_delete, hb] at h
    · intro h
      refine ⟨i, rfl, ?_⟩
      cases hb : get_book_rating_core bs i with
      | none => rfl
      | some d => simp [specificRatings_get, get_book_rating, hp, hb] at h
    · intro h
      refine ⟨i, rfl, ?_⟩
      cases hb : get_loan_core ls i with
      | none => rfl
      | some d => simp [specificLoan_get, get_loan, hp, hb] at h
    · intro st2 h
      refine ⟨i, rfl, ?_⟩
      cases hb : get_loan_core ls i with
      | none => rfl
      | some d => simp [specificLoan_delete, get_loan, delete_loan, hp, hb] at h

theorem C10_malformed_identifier_raises_witness :
    specificBook_get freshStore "abc" = Except.error () ∧
    specificBook_delete_str freshStore "abc" = Except.error () ∧
    specificRatings_get freshStore "abc" = Except.error () ∧
    specificLoan_get freshLoanStore "abc" = Except.error () ∧
    specificLoan_delete freshLoanStore "abc" = Except.error () :=
  (C10_malformed_identifier_raises freshStore freshLoanStore "abc").1 rfl

/-- C3: appending a rating value to an existing rating record persists the
value (the stored sequence becomes the old one with the value appended)
and persists the average as the exact quotient `sum(values)/len(values)`
recomputed over the whole stored sequence at that point, leaving every
other rating record unchanged; the returned average is the same quotient. -/
theorem C3_average_recomputed_from_full_sequence (s : BookSvc) (rid : Int) (v : Int)
    (r : RatingFields) (h : findOne s.ratingCol rid = some r) :
    ∃ s2, add_rating_value s v rid = some (s2, ratMean (r.values ++ [v])) ∧
      findOne s2.ratingCol rid =
        some { r with values := r.values ++ [v], average := ratMean (r.values ++ [v]) } ∧
      (∀ j, j ≠ rid → findOne s2.ratingCol j = findOne s.ratingCol j) := by
  have h1 : findOne (updateOne s.ratingCol rid
      (fun rr => { rr with values := rr.values ++ [v] })) rid =
      some { r with values := r.values ++ [v] } := by
    rw [findOne_updateOne_self, h]
    rfl
  refine ⟨⟨s.bookCol,
    updateOne (updateOne s.ratingCol rid (fun rr => { rr with values := rr.values ++ [v] })) rid
      (fun rr => { rr with average := ratMean (r.values ++ [v]) })⟩, ?_, ?_, ?_⟩
  · simp only [add_rating_value, calculate_rating_average, h1]
    rfl
  · rw [findOne_updateOne_self, h1]
    rfl
  · intro j hj
    rw [findOne_updateOne_ne _ _ _ _ (fun e => hj e.symm),
      findOne_updateOne_ne _ _ _ _ (fun e => hj e.symm)]

theorem findOne_cons {α : Type} (i : Int) (d : α) (tl : List (Int × α)) (k : Int) :
    findOne ((i, d) :: tl) k = if i = k then some d else findOne tl k := rfl

theorem eraseFirst_cons {α : Type} (p : α → Bool) (a : α) (tl : List α) :
    eraseFirst p (a :: tl) = if p a then tl else a :: eraseFirst p tl := rfl

theorem findOne_eq_none_of_not_mem {α : Type} (col : List (Int × α)) (k : Int)
    (h : k ∉ col.map Prod.fst) : findOne col k = none := by
  induction col with
  | nil => rfl
  | cons hd tl ih =>
    obtain ⟨i, d⟩ := hd
    simp only [List.map_cons, List.mem_cons, not_or] at h
    rw [findOne_cons, if_neg (Ne.symm h.1)]
    exact ih h.2

theorem findOne_mem {α : Type} (col : List (Int × α)) (k : Int) (d : α)
    (h : findOne col k = some d) : (k, d) ∈ col := by
  induction col with
  | nil => simp [findOne] at h
  | cons hd tl ih =>
    obtain ⟨i, e⟩ := hd
    rw [findOne_cons] at h
    by_cases hi : i = k
    · rw [if_pos hi] at h
      obtain rfl : e = d := by simpa using h
      subst hi
      exact List.mem_cons_self _ _
    · rw [if_neg hi] at h
      exact List.mem_cons_of_mem _ (ih h)

theorem findOne_deleteOne_nodup {α : Type} (col : List (Int × α)) (k : Int)
    (hk : (col.map Prod.fst).Nodup) : findOne (deleteOne col k) k = none := by
  induction col with
  | nil => rfl
  | cons hd tl ih =>
    obtain ⟨i, d⟩ := hd
    simp only [List.map_cons, List.nodup_cons] at hk
    by_cases hi : i = k
    · subst hi
      rw [deleteOne, eraseFirst_cons, if_pos (by simp)]
      exact findOne_eq_none_of_not_mem tl i hk.1
    · rw [deleteOne, eraseFirst_cons, if_neg (by simp [hi]), findOne_cons, if_neg hi]
      exact ih hk.2

theorem findOne_eraseDoc_nodup {α : Type} [DecidableEq α] (col : List (Int × α)) (k : Int) (d : α)
    (hk : (col.map Prod.fst).Nodup) (hpd : col.Pairwise (fun p q => p.2 ≠ q.2))
    (h : findOne col k = some d) :
    findOne (eraseFirst (fun q => decide (q.2 = d)) col) k = none := by
  induction col with
  | nil => simp [findOne] at h
  | cons hd0 tl ih =>
    obtain ⟨i, e⟩ := hd0
    simp only [List.map_cons, List.nodup_cons] at hk
    rw [List.pairwise_cons] at hpd
    rw [findOne_cons] at h
    by_cases hi : i = k
    · rw [if_pos hi] at h
      obtain rfl : e = d := by simpa using h
      subst hi
      rw [eraseFirst_cons, if_pos (by simp)]
      exact findOne_eq_none_of_not_mem tl i hk.1
    · rw [if_neg hi] at h
      have hne : e ≠ d := fun hcontra => hpd.1 (k, d) (findOne_mem tl k d h) (by simpa using hcontra)
      rw [eraseFirst_cons, if_neg (by simp [hne]), findOne_cons, if_neg hi]
      exact ih hk.2 hpd.2 h

/-- C7: deleting a book identifier present in the catalog removes both the
book document and its paired rating document, after which neither point
lookup succeeds; deleting an absent identifier answers 404 and leaves the
store unchanged.  The store hypotheses are the collection invariants:
Mongo `_id` keys are unique, and no two book documents carry the same
field values (a consequence of ISBN uniqueness), which makes the source's
delete-by-projected-fields remove the intended document. -/
theorem C7_delete_cascades_to_rating (s : BookSvc) (i : Int)
    (hbk : (s.bookCol.map Prod.fst).Nodup)
    (hbd : s.bookCol.Pairwise (fun p q => p.2 ≠ q.2))
    (hrk : (s.ratingCol.map Prod.fst).Nodup) :
    (get_book_core s i = none → specificBook_delete s i = (s, 404)) ∧
    (∀ d, get_book_core s i = some d →
      (specificBook_delete s i).2 = 200 ∧
      get_book_core (specificBook_delete s i).1 i = none ∧
      get_book_rating_core (specificBook_delete s i).1 i = none) := by
  constructor
  · intro h
    simp [specificBook_delete, h]
  · intro d h
    have h0 : 0 < i := by
      by_contra hc
      simp [get_book_core, if_neg hc] at h
    have hf : findOne s.bookCol i = some d := by
      simpa [get_book_core, if_pos h0] using h
    have hrat1 : findOne (deleteOne s.ratingCol i) i = none :=
      findOne_deleteOne_nodup s.ratingCol i hrk
    have hdb : delete_book s i =
        { s with bookCol := eraseFirst (fun q => decide (q.2 = d)) s.bookCol,
                 ratingCol := deleteOne s.ratingCol i } := by
      simp [delete_book, h]
    have hdbr : delete_book_rating (delete_book s i) i = delete_book s i := by
      rw [hdb]
      simp [delete_book_rating, get_book_rating_core, hrat1]
    have hout : specificBook_delete s i = (delete_book s i, 200) := by
      simp [specificBook_delete, h, hdbr]
    refine ⟨by simp [hout], ?_, ?_⟩
    · rw [hout, hdb]
      simp only [get_book_core, if_pos h0]
      exact findOne_eraseDoc_nodup s.bookCol i d hbk hbd hf
    · rw [hout, hdb]
      simpa [get_book_rating_core] using hrat1

theorem C7_delete_cascades_witness :
    (get_book_core bcSample 1 = none → specificBook_delete bcSample 1 = (bcSample, 404)) ∧
    (∀ d, get_book_core bcSample 1 = some d →
      (specificBook_delete bcSample 1).2 = 200 ∧
      get_book_core (specificBook_delete bcSample 1).1 1 = none ∧
      get_book_rating_core (specificBook_delete bcSample 1).1 1 = none) :=
  C7_delete_cascades_to_rating bcSample 1 (by decide) (by decide) (by decide)

/-- C2: for a loan-creation request that passed all five validation gates,
a catalog response that is not a 200 success or whose decoded body is
empty makes `Loans.post` answer 404 with the store unchanged (no loan
record created, no identifier allocated); and a loan is committed (a
status carrying an allocated loan id) only when the catalog response was
a 200 with a non-empty body, in which case the status is 201. -/
theorem C2_loan_aborted_without_catalog_success (st : LoanSvc)
    (payload : List (String × String)) (status : Nat) (body : RespBody)
    (hval : validate_loan_addition st payload = none) :
    ((status ≠ 200 ∨ bodyLen body = 0) →
      loans_post st payload status body = Except.ok (st, 404, none)) ∧
    (∀ st2 code lid, loans_post st payload status body = Except.ok (st2, code, some lid) →
      status = 200 ∧ bodyLen body ≠ 0 ∧ code = 201) := by
  have hne : ¬ payload.length = 0 := by
    intro hc
    rw [validate_loan_addition, if_pos (Or.inl (by simp [hc, REQUIRED_FIELDS_LOANS]))] at hval
    exact Option.noConfusion hval
  constructor
  · intro h
    rw [loans_post, if_neg hne, hval, if_pos (h.symm.imp (fun a => a) (fun a => a))]
  · intro st2 code lid h
    rw [loans_post, if_neg hne, hval] at h
    by_cases hcond : bodyLen body = 0 ∨ status ≠ 200
    · rw [if_pos hcond] at h
      simp at h
    · rw [if_neg hcond] at h
      push_neg at hcond
      cases hinc : loan_increment_id st with
      | none => rw [hinc] at h; exact Except.noConfusion h
      | some p =>
        obtain ⟨st1, newId⟩ := p
        rw [hinc] at h
        cases hid : bodyGet body "id" with
        | none => rw [hid] at h; exact Except.noConfusion h
        | some bid =>
          cases htitle : bodyGet body "title" with
          | none => rw [hid, htitle] at h; exact Except.noConfusion h
          | some btitle =>
            rw [hid, htitle] at h
            refine ⟨hcond.2, hcond.1, ?_⟩
            have := Except.ok.inj h
            exact (congrArg (fun q => q.2.1) this).symm

theorem C2_loan_aborted_witness :
    ((404 ≠ 200 ∨ bodyLen (RespBody.obj []) = 0) →
      loans_post freshLoanStore
        [("memberName", "m"), ("ISBN", "1234567890123"), ("loanDate", "2024-01-15")]
        404 (RespBody.obj []) = Except.ok (freshLoanStore, 404, none)) ∧
    (∀ st2 code lid, loans_post freshLoanStore
        [("memberName", "m"), ("ISBN", "1234567890123"), ("loanDate", "2024-01-15")]
        404 (RespBody.obj []) = Except.ok (st2, code, some lid) →
      404 = 200 ∧ bodyLen (RespBody.obj []) ≠ 0 ∧ code = 201) :=
  C2_loan_aborted_without_catalog_success freshLoanStore
    [("memberName", "m"), ("ISBN", "1234567890123"), ("loanDate", "2024-01-15")]
    404 (RespBody.obj []) (by decide)

/-- C5: the five validation gates of `validate_loan_addition` fire in
source order — structural field set, 13-character ISBN, no active loan
with this ISBN, member active-loan count below 2, then date format and
calendar validity — each gate being reached only when every earlier gate
passed; any gate failure is a 422 refusal from `Loans.post` that leaves
the store unchanged, so no loan record is created when the ISBN already
has an active loan, or the member already has 2 active loans, or the loan
date fails calendar validation. -/
theorem C5_validation_gates_in_order (st : LoanSvc) (payload : List (String × String))
    (status : Nat) (body : RespBody) :
    (∀ e, validate_loan_addition st payload = some e → payload.length ≠ 0 →
      loans_post st payload status body = Except.ok (st, 422, none)) ∧
    ((payload.length ≠ (REQUIRED_FIELDS_LOANS.take 3).length ∨
        ¬ (∀ f ∈ REQUIRED_FIELDS_LOANS.take 3, (plookup payload f).isSome)) →
      validate_loan_addition st payload = some LoanErr.badFields) ∧
    (payload.length = (REQUIRED_FIELDS_LOANS.take 3).length →
      (∀ f ∈ REQUIRED_FIELDS_LOANS.take 3, (plookup payload f).isSome) →
      (pget payload "ISBN").length ≠ 13 →
      validate_loan_addition st payload = some LoanErr.badIsbn) ∧
    (payload.length = (REQUIRED_FIELDS_LOANS.take 3).length →
      (∀ f ∈ REQUIRED_FIELDS_LOANS.take 3, (plookup payload f).isSome) →
      (pget payload "ISBN").length = 13 →
      (get_loans st).any (fun p => decide (lIsbn p.2 = pget payload "ISBN")) = true →
      validate_loan_addition st payload = some LoanErr.isbnOnLoan) ∧
    (payload.length = (REQUIRED_FIELDS_LOANS.take 3).length →
      (∀ f ∈ REQUIRED_FIELDS_LOANS.take 3, (plookup payload f).isSome) →
      (pget payload "ISBN").length = 13 →
      (get_loans st).any (fun p => decide (lIsbn p.2 = pget payload "ISBN")) = false →
      2 ≤ loan_count_of_member st (pget payload "memberName") →
      validate_loan_addition st payload = some LoanErr.memberLimit) ∧
    (payload.length = (REQUIRED_FIELDS_LOANS.take 3).length →
      (∀ f ∈ REQUIRED_FIELDS_LOANS.take 3, (plookup payload f).isSome) →
      (pget payload "ISBN").length = 13 →
      (get_loans st).any (fun p => decide (lIsbn p.2 = pget payload "ISBN")) = false →
      loan_count_of_member st (pget payload "memberName") < 2 →
      dateFormatOk (pget payload "loanDate") = false →
      validate_loan_addition st payload = some LoanErr.badDateFormat) ∧
    (payload.length = (REQUIRED_FIELDS_LOANS.take 3).length →
      (∀ f ∈ REQUIRED_FIELDS_LOANS.take 3, (plookup payload f).isSome) →
      (pget payload "ISBN").length = 13 →
      (get_loans st).any (fun p => decide (lIsbn p.2 = pget payload "ISBN")) = false →
      loan_count_of_member st (pget payload "memberName") < 2 →
      dateFormatOk (pget payload "loanDate") = true →
      calendarValid (pget payload "loanDate") = false →
      validate_loan_addition st payload = some LoanErr.badDate) := by
  refine ⟨?_, ?_, ?_, ?_, ?_, ?_, ?_⟩
  · intro e hval hlen0
    rw [loans_post, if_neg hlen0, hval]
  · intro h
    rw [validate_loan_addition, if_pos h]
  · intro hlen hfields hisbn
    rw [validate_loan_addition,
      if_neg (not_or.mpr ⟨fun hA => hA hlen, fun hB => hB hfields⟩), if_pos hisbn]
  · intro hlen hfields hisbn hany
    rw [validate_loan_addition,
      if_neg (not_or.mpr ⟨fun hA => hA hlen, fun hB => hB hfields⟩),
      if_neg (fun hc => hc hisbn), if_pos hany]
  · intro hlen hfields hisbn hany hcnt
    rw [validate_loan_addition,
      if_neg (not_or.mpr ⟨fun hA => hA hlen, fun hB => hB hfields⟩),
      if_neg (fun hc => hc hisbn), if_neg (by simp [hany]), if_pos hcnt]
  · intro hlen hfields hisbn hany hcnt hfmt
    rw [validate_loan_addition,
      if_neg (not_or.mpr ⟨fun hA => hA hlen, fun hB => hB hfields⟩),
      if_neg (fun hc => hc hisbn), if_neg (by simp [hany]),
      if_neg (by omega), if_pos (by simp [hfmt])]
  · intro hlen hfields hisbn hany hcnt hfmt hcal
    rw [validate_loan_addition,
      if_neg (not_or.mpr ⟨fun hA => hA hlen, fun hB => hB hfields⟩),
      if_neg (fun hc => hc hisbn), if_neg (by simp [hany]),
      if_neg (by omega), if_neg (by simp [hfmt]), if_pos (by simp [hcal])]

theorem C5_validation_gates_witness :
    validate_loan_addition loanSample
      [("memberName", "bob"), ("ISBN", "1234567890123"), ("loanDate", "2024-02-02")] =
      some LoanErr.isbnOnLoan :=
  ((C5_validation_gates_in_order loanSample
      [("memberName", "bob"), ("ISBN", "1234567890123"), ("loanDate", "2024-02-02")]
      200 (RespBody.arr 0)).2.2.2.1) (by decide) (by decide) (by decide) (by decide)

/-- C8: a book-list query on a supported field restricts the result to
records whose field equals the query value exactly, except `language`,
which keeps records whose language list contains the query value; a query
naming an unsupported field, or naming `genre` with a value outside the
closed genre enumeration, is answered with a client error (`none`) rather
than being silently ignored. -/
theorem C8_books_get_filtering (f v : String) (books : List HBook) :
    (f ∉ hw1RequiredFields → books_get_filter [(f, v)] books = none) ∧
    (v ∉ GENRES → books_get_filter [("genre", v)] books = none) ∧
    (f ∈ hw1RequiredFields → f ≠ "language" → (f = "genre" → v ∈ GENRES) →
      books_get_filter [(f, v)] books =
        some (books.filter (fun b => decide (hbookField b f = v)))) ∧
    (v ∈ hw1Languages →
      books_get_filter [("language", v)] books =
        some (books.filter (fun b => decide (v ∈ b.language)))) := by
  refine ⟨?_, ?_, ?_, ?_⟩
  · intro h
    unfold books_get_filter
    rw [if_pos (Or.inl h)]
  · intro h
    unfold books_get_filter
    rw [if_pos (Or.inr ⟨rfl, h⟩)]
  · intro h1 h2 h3
    unfold books_get_filter
    rw [if_neg (not_or.mpr ⟨fun hc => hc h1, fun hc => hc.2 (h3 hc.1)⟩), if_neg h2]
    rfl
  · intro h4
    unfold books_get_filter
    rw [if_neg (not_or.mpr ⟨by decide, fun hc => absurd hc.1 (by decide)⟩),
      if_pos rfl, if_neg (fun hc => hc h4)]
    rfl

theorem C8_books_get_filtering_witness :
    books_get_filter [("language", "eng")]
        [⟨"T", "1234567890123", "Fiction", "A", "P", "2020", "S", "1", ["eng", "heb"]⟩] =
      some ([⟨"T", "1234567890123", "Fiction", "A", "P", "2020", "S", "1", ["eng", "heb"]⟩].filter
        (fun b => decide ("eng" ∈ b.language))) :=
  (C8_books_get_filtering "language" "eng"
      [⟨"T", "1234567890123", "Fiction", "A", "P", "2020", "S", "1", ["eng", "heb"]⟩]).2.2.2
    (by decide)

theorem mem_insertDesc (x y : BookFields × RatingFields)
    (l : List (BookFields × RatingFields)) : x ∈ insertDesc y l ↔ x = y ∨ x ∈ l := by
  induction l with
  | nil => simp [insertDesc]
  | cons z rest ih =>
    unfold insertDesc
    by_cases h : z.2.average ≤ y.2.average
    · rw [if_pos h]
      simp [or_assoc]
    · rw [if_neg h]
      simp only [List.mem_cons, ih]
      tauto

theorem sorted_insertDesc (y : BookFields × RatingFields)
    (l : List (BookFields × RatingFields))
    (h : l.Pairwise (fun a b => b.2.average ≤ a.2.average)) :
    (insertDesc y l).Pairwise (fun a b => b.2.average ≤ a.2.average) := by
  induction l with
  | nil => simp [insertDesc]
  | cons z rest ih =>
    rw [List.pairwise_cons] at h
    unfold insertDesc
    by_cases hle : z.2.average ≤ y.2.average
    · rw [if_pos hle]
      refine List.pairwise_cons.2 ⟨?_, List.pairwise_cons.2 ⟨h.1, h.2⟩⟩
      intro w hw
      rcases List.mem_cons.1 hw with rfl | hw2
      · exact hle
      · exact le_trans (h.1 w hw2) hle
    · rw [if_neg hle]
      refine List.pairwise_cons.2 ⟨?_, ih h.2⟩
      intro w hw
      rcases (mem_insertDesc w y rest).1 hw with rfl | hw2
      · exact le_of_not_le hle
      · exact h.1 w hw2

theorem mem_sortDesc (x : BookFields × RatingFields) (l : List (BookFields × RatingFields)) :
    x ∈ sortDesc l ↔ x ∈ l := by
  induction l with
  | nil => simp [sortDesc]
  | cons z rest ih =>
    unfold sortDesc
    rw [mem_insertDesc, ih]
    simp

theorem sorted_sortDesc (l : List (BookFields × RatingFields)) :
    (sortDesc l).Pairwise (fun a b => b.2.average ≤ a.2.average) := by
  induction l with
  | nil => simp [sortDesc]
  | cons z rest ih => exact sorted_insertDesc z (sortDesc rest) ih

theorem topLoop_cons (br : BookFields × RatingFields)
    (rest : List (BookFields × RatingFields)) (k : Nat) (cur : ℚ) :
    topLoop (br :: rest) k cur =
      if br.2.average ≠ cur then
        (if k + 1 > 3 then [] else projTop br :: topLoop rest (k + 1) br.2.average)
      else projTop br :: topLoop rest k br.2.average := rfl

theorem topLoop_sound (l : List (BookFields × RatingFields)) :
    ∀ (k : Nat) (cur : ℚ), ∀ x ∈ topLoop l k cur, ∃ br ∈ l, x = projTop br := by
  induction l with
  | nil => intro k cur x hx; simp [topLoop] at hx
  | cons b0 rest ih =>
    intro k cur x hx
    rw [topLoop_cons] at hx
    by_cases h1 : b0.2.average ≠ cur
    · rw [if_pos h1] at hx
      by_cases h2 : k + 1 > 3
      · rw [if_pos h2] at hx
        simp at hx
      · rw [if_neg h2] at hx
        rcases List.mem_cons.1 hx with rfl | hx2
        · exact ⟨b0, List.mem_cons_self _ _, rfl⟩
        · obtain ⟨br, hbr, rfl⟩ := ih (k + 1) b0.2.average x hx2
          exact ⟨br, List.mem_cons_of_mem _ hbr, rfl⟩
    · rw [if_neg h1] at hx
      rcases List.mem_cons.1 hx with rfl | hx2
      · exact ⟨b0, List.mem_cons_self _ _, rfl⟩
      · obtain ⟨br, hbr, rfl⟩ := ih k b0.2.average x hx2
        exact ⟨br, List.mem_cons_of_mem _ hbr, rfl⟩

theorem topLoop_prefix (l : List (BookFields × RatingFields)) :
    ∀ (k : Nat) (cur : ℚ), ∃ m, topLoop l k cur = (l.take m).map projTop := by
  induction l with
  | nil => intro k cur; exact ⟨0, rfl⟩
  | cons b0 rest ih =>
    intro k cur
    rw [topLoop_cons]
    by_cases h1 : b0.2.average ≠ cur
    · rw [if_pos h1]
      by_cases h2 : k + 1 > 3
      · rw [if_pos h2]
        exact ⟨0, rfl⟩
      · rw [if_neg h2]
        obtain ⟨m, hm⟩ := ih (k + 1) b0.2.average
        exact ⟨m + 1, by rw [hm]; rfl⟩
    · rw [if_neg h1]
      obtain ⟨m, hm⟩ := ih k b0.2.average
      exact ⟨m + 1, by rw [hm]; rfl⟩

theorem dedup_cons_of_sorted (a : ℚ) (A : List ℚ)
    (hs : A.Pairwise (fun x y => y ≤ x)) (hb : ∀ x ∈ A, x ≤ a) :
    (a :: A).dedup = a :: (A.filter (fun x => decide (x ≠ a))).dedup := by
  induction A with
  | nil => simp
  | cons x A2 ih =>
    rw [List.pairwise_cons] at hs
    by_cases hxa : x = a
    · subst hxa
      rw [List.dedup_cons_of_mem (List.mem_cons_self x A2),
        ih hs.2 (fun z hz => hb z (List.mem_cons_of_mem _ hz))]
      simp
    · have hxlt : x < a := lt_of_le_of_ne (hb x (List.mem_cons_self _ _)) hxa
      have hnotmem : a ∉ x :: A2 := by
        intro hc
        rcases List.mem_cons.1 hc with rfl | hc2
        · exact hxa rfl
        · exact absurd (hs.1 a hc2) (not_le.mpr hxlt)
      rw [List.dedup_cons_of_not_mem hnotmem]
      have hfilter : (x :: A2).filter (fun z => decide (z ≠ a)) = x :: A2 := by
        apply List.filter_eq_self.mpr
        intro z hz
        rcases List.mem_cons.1 hz with rfl | hz2
        · simpa using hxa
        · have hzx : z ≤ x := hs.1 z hz2
          simp only [decide_eq_true_eq]
          intro hc
          subst hc
          exact absurd hzx (not_le.mpr hxlt)
      rw [hfilter]

theorem topLoop_complete (l : List (BookFields × RatingFields)) :
    ∀ (k : Nat) (cur : ℚ),
      l.Pairwise (fun a b => b.2.average ≤ a.2.average) →
      (∀ x ∈ l, x.2.average ≤ cur) → k ≤ 3 →
      ∀ br ∈ l,
        (br.2.average = cur ∨
          br.2.average ∈
            (((l.map (fun x => x.2.average)).filter (fun x => decide (x ≠ cur))).dedup).take
              (3 - k)) →
        projTop br ∈ topLoop l k cur := by
  induction l with
  | nil => intro k cur _ _ _ br hbr _; simp at hbr
  | cons b0 rest ih =>
    intro k cur hs hb hk br hbr hallow
    rw [List.pairwise_cons] at hs
    rw [topLoop_cons]
    by_cases heq : b0.2.average = cur
    · rw [if_neg (fun hc => hc heq)]
      rcases List.mem_cons.1 hbr with rfl | hbr2
      · exact List.mem_cons_self _ _
      · refine List.mem_cons_of_mem _ ?_
        rw [heq]
        refine ih k cur hs.2 (fun x hx => hb x (List.mem_cons_of_mem _ hx)) hk br hbr2 ?_
        have hfeq : ((b0 :: rest).map (fun x => x.2.average)).filter (fun x => decide (x ≠ cur)) =
            (rest.map (fun x => x.2.average)).filter (fun x => decide (x ≠ cur)) := by
          simp [heq]
        rwa [hfeq] at hallow
    · have hlt : b0.2.average < cur :=
        lt_of_le_of_ne (hb b0 (List.mem_cons_self _ _)) heq
      rw [if_pos heq]
      have hbrlt : br.2.average < cur := by
        rcases List.mem_cons.1 hbr with rfl | hbr2
        · exact hlt
        · exact lt_of_le_of_lt (hs.1 br hbr2) hlt
      have hne2 : br.2.average ≠ cur := ne_of_lt hbrlt
      by_cases hk3 : k = 3
      · exfalso
        subst hk3
        rcases hallow with hc | hc
        · exact hne2 hc
        · simp at hc
      · have hklt : k < 3 := lt_of_le_of_ne hk hk3
        rw [if_neg (by omega)]
        -- the filter over the whole list keeps every average (all are below `cur`)
        have hfilter : ((b0 :: rest).map (fun x => x.2.average)).filter
            (fun x => decide (x ≠ cur)) = b0.2.average :: rest.map (fun x => x.2.average) := by
          rw [List.map_cons]
          apply List.filter_eq_self.mpr
          intro z hz
          simp only [decide_eq_true_eq]
          rcases List.mem_cons.1 hz with rfl | hz2
          · exact heq
          · obtain ⟨x, hx, rfl⟩ := List.mem_map.1 hz2
            exact ne_of_lt (lt_of_le_of_lt (hs.1 x hx) hlt)
        have hsA : (rest.map (fun x => x.2.average)).Pairwise (fun x y => y ≤ x) :=
          List.Pairwise.map _ (fun a b hab => hab) hs.2
        have hbA : ∀ y ∈ rest.map (fun x => x.2.average), y ≤ b0.2.average := by
          intro y hy
          obtain ⟨x, hx, rfl⟩ := List.mem_map.1 hy
          exact hs.1 x hx
        have hdd := dedup_cons_of_sorted b0.2.average (rest.map (fun x => x.2.average)) hsA hbA
        rcases List.mem_cons.1 hbr with rfl | hbr2
        · exact List.mem_cons_self _ _
        · refine List.mem_cons_of_mem _ ?_
          refine ih (k + 1) b0.2.average hs.2 hs.1 (by omega) br hbr2 ?_
          rcases hallow with hc | hc
          · exact absurd hc hne2
          · rw [hfilter, hdd] at hc
            have htake : (3 - k) = (3 - (k + 1)) + 1 := by omega
            rw [htake, List.take_succ_cons] at hc
            rcases List.mem_cons.1 hc with hc2 | hc2
            · exact Or.inl hc2
            · exact Or.inr hc2

/-- C4: the Top-N output never contains a book whose rating record has
fewer than 3 values; it is ordered by average descending; and every
eligible book whose average is one of the 3 highest distinct averages
among eligible books is included — so ties are never split and the output
may hold more than 3 books.  The averages-nonzero hypothesis is the
invariant established by rating validation (values lie in `[1, 5]`, so an
eligible book's average is at least 1). -/
theorem C4_top_books_distinct_average_cutoff (s : BookSvc)
    (brs : List (BookFields × RatingFields)) (hbrs : booksWithRatings s = some brs)
    (havg : ∀ br ∈ eligibleOf brs, br.2.average ≠ 0) :
    top_books_get s = some (topLoop (sortDesc (eligibleOf brs)) 0 0) ∧
    (∀ x ∈ topLoop (sortDesc (eligibleOf brs)) 0 0,
      ∃ br ∈ eligibleOf brs, 3 ≤ br.2.values.length ∧ x = projTop br) ∧
    ((topLoop (sortDesc (eligibleOf brs)) 0 0).map (fun x => x.2.2)).Pairwise
      (fun a b => b ≤ a) ∧
    (∀ br ∈ eligibleOf brs, br.2.average ∈ topDistinctAverages brs →
      projTop br ∈ topLoop (sortDesc (eligibleOf brs)) 0 0) := by
  refine ⟨?_, ?_, ?_, ?_⟩
  · rw [top_books_get, hbrs]
    rfl
  · intro x hx
    obtain ⟨br, hbr, rfl⟩ := topLoop_sound (sortDesc (eligibleOf brs)) 0 0 x hx
    have hel : br ∈ eligibleOf brs := (mem_sortDesc br _).1 hbr
    have hlen : 3 ≤ br.2.values.length := by
      have := (List.mem_filter.1 hel).2
      simpa using this
    exact ⟨br, hel, hlen, rfl⟩
  · obtain ⟨m, hm⟩ := topLoop_prefix (sortDesc (eligibleOf brs)) 0 0
    rw [hm, List.map_map]
    exact List.Pairwise.map _ (fun a b hab => hab)
      ((sorted_sortDesc (eligibleOf brs)).sublist (List.take_sublist m _))
  · intro br hbr hmem
    have hbr2 : br ∈ sortDesc (eligibleOf brs) := (mem_sortDesc br _).2 hbr
    rw [topDistinctAverages] at hmem
    cases hsd : sortDesc (eligibleOf brs) with
    | nil =>
      rw [hsd] at hbr2
      simp at hbr2
    | cons b0 rest =>
      rw [hsd] at hbr2 hmem
      have hsorted := sorted_sortDesc (eligibleOf brs)
      rw [hsd, List.pairwise_cons] at hsorted
      have hb0el : b0 ∈ eligibleOf brs := by
        rw [← mem_sortDesc b0 (eligibleOf brs), hsd]
        exact List.mem_cons_self _ _
      have hb0ne : b0.2.average ≠ 0 := havg b0 hb0el
      rw [topLoop_cons, if_pos hb0ne, if_neg (by omega : ¬ (0 + 1 > 3))]
      have hsA : (rest.map (fun x => x.2.average)).Pairwise (fun x y => y ≤ x) :=
        List.Pairwise.map _ (fun a b hab => hab) hsorted.2
      have hbA : ∀ y ∈ rest.map (fun x => x.2.average), y ≤ b0.2.average := by
        intro y hy
        obtain ⟨x, hx, rfl⟩ := List.mem_map.1 hy
        exact hsorted.1 x hx
      have hdd := dedup_cons_of_sorted b0.2.average (rest.map (fun x => x.2.average)) hsA hbA
      rw [List.map_cons, hdd, List.take_succ_cons] at hmem
      rcases List.mem_cons.1 hbr2 with rfl | hbr3
      · exact List.mem_cons_self _ _
      · refine List.mem_cons_of_mem _ ?_
        refine topLoop_complete rest 1 b0.2.average hsorted.2 hsorted.1 (by omega) br hbr3 ?_
        rcases List.mem_cons.1 hmem with hc | hc
        · exact Or.inl hc
        · exact Or.inr hc

theorem C4_top_books_witness :
    (top_books_get topSample = some (topLoop (sortDesc (eligibleOf topSampleBR)) 0 0) ∧
      (∀ x ∈ topLoop (sortDesc (eligibleOf topSampleBR)) 0 0,
        ∃ br ∈ eligibleOf topSampleBR, 3 ≤ br.2.values.length ∧ x = projTop br) ∧
      ((topLoop (sortDesc (eligibleOf topSampleBR)) 0 0).map (fun x => x.2.2)).Pairwise
        (fun a b => b ≤ a) ∧
      (∀ br ∈ eligibleOf topSampleBR, br.2.average ∈ topDistinctAverages topSampleBR →
        projTop br ∈ topLoop (sortDesc (eligibleOf topSampleBR)) 0 0)) ∧
    (topLoop (sortDesc (eligibleOf topSampleBR)) 0 0).length = 4 :=
  ⟨C4_top_books_distinct_average_cutoff topSample topSampleBR (by decide) (by decide),
   by decide⟩

theorem C3_average_recomputed_witness :
    ∃ s2, add_rating_value ⟨[(0, BDoc.counter 1)], [(1, ⟨"1", [4], 4, "t"⟩)]⟩ 5 1 =
        some (s2, ratMean ([4] ++ [5])) ∧
      findOne s2.ratingCol 1 = some ⟨"1", [4] ++ [5], ratMean ([4] ++ [5]), "t"⟩ ∧
      (∀ j, j ≠ 1 → findOne s2.ratingCol j =
        findOne (⟨[(0, BDoc.counter 1)], [(1, ⟨"1", [4], 4, "t"⟩)]⟩ : BookSvc).ratingCol j) :=
  C3_average_recomputed_from_full_sequence _ 1 5 ⟨"1", [4], 4, "t"⟩ rfl

end BookClubModel
